import Mathlib

/-!
Verification development for the watsonx-go retry engine and structured
error decoder (src/pkg/models/retry.go, src/pkg/models/errors.go).

The Go code is shallowly embedded:
 - a response body is a buffer of bytes (`String`) together with a flag
   telling whether reading it fails (io.ReadAll error);
 - `DecodeWatsonxError` returns the structured error together with the
   response as mutated by the body read-and-restore step;
 - the JSON envelope parsing performed by encoding/json.Unmarshal is
   embedded as a total JSON parser plus an unmarshalling step mirroring
   Go's semantics (unknown fields ignored, missing fields zeroed, field
   names matched case-insensitively, null leaves the target untouched,
   any type mismatch makes Unmarshal return an error);
 - the retry loop is a function of an environment of oracles giving the
   outcome of each invocation of the retryable function, the value of
   ctx.Err() at the check before each attempt, and whether ctx.Done()
   wins the select race during each backoff wait; the loop returns the
   (response, error) pair together with a trace of observable events
   (operation invocations, onRetry callbacks, completed waits).
   Wait durations are not modelled: the jitter summand is drawn from a
   random source and no claim depends on the duration value.
-/

namespace WatsonxGo

/-! ## JSON values and parsing (encoding/json) -/

/-- A parsed JSON document. Number lexemes are kept as strings: the
envelope schema has no numeric field, so their value is never needed. -/
inductive Json where
  | null
  | bool (b : Bool)
  | num (lexeme : String)
  | str (s : String)
  | arr (elems : List Json)
  | obj (fields : List (String × Json))

/-- Drop leading JSON whitespace. -/
def skipWs : List Char → List Char
  | c :: cs =>
    if c = ' ' ∨ c = '\t' ∨ c = '\n' ∨ c = '\r' then skipWs cs else c :: cs
  | [] => []

/-- Value of a hexadecimal digit. -/
def hexVal (c : Char) : Option Nat :=
  if '0' ≤ c ∧ c ≤ '9' then some (c.toNat - '0'.toNat)
  else if 'a' ≤ c ∧ c ≤ 'f' then some (c.toNat - 'a'.toNat + 10)
  else if 'A' ≤ c ∧ c ≤ 'F' then some (c.toNat - 'A'.toNat + 10)
  else none

/-- Single-character JSON string escapes. -/
def escChar (e : Char) : Option Char :=
  if e = '\"' then some '\"'
  else if e = '\\' then some '\\'
  else if e = '/' then some '/'
  else if e = 'n' then some '\n'
  else if e = 't' then some '\t'
  else if e = 'r' then some '\r'
  else if e = 'b' then some (Char.ofNat 8)
  else if e = 'f' then some (Char.ofNat 12)
  else none

/-- Parse the characters of a JSON string after its opening quote,
returning the decoded characters and the input after the closing
quote. -/
def parseStringChars : List Char → Option (List Char × List Char)
  | [] => none
  | c :: rest =>
    if c = '\"' then some ([], rest)
    else if c = '\\' then
      match rest with
      | [] => none
      | e :: rest2 =>
        if e = 'u' then
          match rest2 with
          | h1 :: h2 :: h3 :: h4 :: rest3 =>
            match hexVal h1, hexVal h2, hexVal h3, hexVal h4 with
            | some a, some b, some c2, some d =>
              match parseStringChars rest3 with
              | some (s, rem) =>
                some (Char.ofNat (((a * 16 + b) * 16 + c2) * 16 + d) :: s, rem)
              | none => none
            | _, _, _, _ => none
          | _ => none
        else
          match escChar e with
          | some ec =>
            match parseStringChars rest2 with
            | some (s, rem) => some (ec :: s, rem)
            | none => none
          | none => none
    else
      match parseStringChars rest with
      | some (s, rem) => some (c :: s, rem)
      | none => none

/-- Longest digit run at the head of the input. -/
def spanDigits (cs : List Char) : List Char × List Char :=
  cs.span (fun c => c.isDigit)

/-- Optional fraction part of a JSON number. -/
def parseFracPart : List Char → Option (List Char × List Char)
  | '.' :: rest =>
    let (ds, rest2) := spanDigits rest
    if ds = [] then none else some ('.' :: ds, rest2)
  | cs => some ([], cs)

/-- Optional exponent part of a JSON number. -/
def parseExpPart : List Char → Option (List Char × List Char)
  | c :: rest =>
    if c = 'e' ∨ c = 'E' then
      let (sgn, rest2) :=
        match rest with
        | s :: t => if s = '+' ∨ s = '-' then ([s], t) else (([] : List Char), rest)
        | [] => ([], rest)
      let (ds, rest3) := spanDigits rest2
      if ds = [] then none else some (c :: (sgn ++ ds), rest3)
    else some ([], c :: rest)
  | [] => some ([], [])

/-- Parse a JSON number lexeme (with the leading-zero restriction of the
JSON grammar), returning the lexeme and the rest of the input. -/
def parseNumberChars (cs : List Char) : Option (List Char × List Char) :=
  let (sgn, cs1) :=
    match cs with
    | '-' :: t => ((['-'] : List Char), t)
    | _ => ([], cs)
  let (ints, cs2) := spanDigits cs1
  if ints = [] then none
  else if 1 < ints.length ∧ ints.head? = some '0' then none
  else
    match parseFracPart cs2 with
    | none => none
    | some (fp, cs3) =>
      match parseExpPart cs3 with
      | none => none
      | some (ep, cs4) => some (sgn ++ ints ++ fp ++ ep, cs4)

mutual

/-- Parse one JSON value, fuel-bounded. -/
def parseValue : Nat → List Char → Option (Json × List Char)
  | 0, _ => none
  | fuel + 1, cs =>
    match skipWs cs with
    | [] => none
    | c :: rest =>
      if c = 'n' then
        match rest with
        | 'u' :: 'l' :: 'l' :: r => some (Json.null, r)
        | _ => none
      else if c = 't' then
        match rest with
        | 'r' :: 'u' :: 'e' :: r => some (Json.bool true, r)
        | _ => none
      else if c = 'f' then
        match rest with
        | 'a' :: 'l' :: 's' :: 'e' :: r => some (Json.bool false, r)
        | _ => none
      else if c = '\"' then
        match parseStringChars rest with
        | some (s, r) => some (Json.str (String.mk s), r)
        | none => none
      else if c = '[' then
        match skipWs rest with
        | ']' :: r => some (Json.arr [], r)
        | cs2 =>
          match parseElems fuel cs2 with
          | some (xs, r) => some (Json.arr xs, r)
          | none => none
      else if c = '{' then
        match skipWs rest with
        | '}' :: r => some (Json.obj [], r)
        | cs2 =>
          match parseFields fuel cs2 with
          | some (fs, r) => some (Json.obj fs, r)
          | none => none
      else if c = '-' ∨ c.isDigit then
        match parseNumberChars (c :: rest) with
        | some (lex, r) => some (Json.num (String.mk lex), r)
        | none => none
      else none
termination_by structural fuel _ => fuel

/-- Parse the comma-separated elements of a non-empty JSON array, up to
and including the closing bracket. -/
def parseElems : Nat → List Char → Option (List Json × List Char)
  | 0, _ => none
  | fuel + 1, cs =>
    match parseValue fuel cs with
    | none => none
    | some (v, rest) =>
      match skipWs rest with
      | ',' :: r2 =>
        match parseElems fuel r2 with
        | some (xs, r3) => some (v :: xs, r3)
        | none => none
      | ']' :: r2 => some ([v], r2)
      | _ => none
termination_by structural fuel _ => fuel

/-- Parse the members of a non-empty JSON object, up to and including
the closing brace. -/
def parseFields : Nat → List Char → Option (List (String × Json) × List Char)
  | 0, _ => none
  | fuel + 1, cs =>
    match skipWs cs with
    | '\"' :: rest =>
      match parseStringChars rest with
      | none => none
      | some (k, r1) =>
        match skipWs r1 with
        | ':' :: r2 =>
          match parseValue fuel r2 with
          | none => none
          | some (v, r3) =>
            match skipWs r3 with
            | ',' :: r4 =>
              match parseFields fuel r4 with
              | some (fs, r5) => some ((String.mk k, v) :: fs, r5)
              | none => none
            | '}' :: r4 => some ([(String.mk k, v)], r4)
            | _ => none
        | _ => none
    | _ => none
termination_by structural fuel _ => fuel

end

/-- Parse a complete JSON document: one value followed only by
whitespace. -/
def parseJson (s : String) : Option Json :=
  let cs := s.toList
  match parseValue (cs.length + 1) cs with
  | some (v, rest) =>
    match skipWs rest with
    | [] => some v
    | _ => none
  | none => none

/-! ## Error model (src/pkg/models/errors.go) -/

/-- Individual error information of the watsonx error envelope
(errors.go, type ErrorDetail). -/
structure ErrorDetail where
  code : String
  message : String
  moreInfo : String
deriving DecidableEq

/-- The error response structure of the Watson X API
(errors.go, type WatsonxErrorResponse). -/
structure WatsonxErrorResponse where
  errors : List ErrorDetail
  trace : String
deriving DecidableEq

/-- A structured WatsonX API error (errors.go, type WatsonxError). -/
structure WatsonxError where
  statusCode : Int
  errors : List ErrorDetail
  trace : String
deriving DecidableEq

/-- ASCII lower-casing of one character. -/
def lowerChar (c : Char) : Char :=
  if 'A' ≤ c ∧ c ≤ 'Z' then Char.ofNat (c.toNat + 32) else c

/-- Go's encoding/json matches object keys to struct field tags
case-insensitively. -/
def keyMatches (k tag : String) : Bool := k.data.map lowerChar == tag.data

/-- Unmarshal a JSON value into a string field whose current value is
`cur`: a JSON string replaces it, null leaves it untouched, anything
else is a type error. -/
def stringField (v : Json) (cur : String) : Option String :=
  match v with
  | Json.str s => some s
  | Json.null => some cur
  | _ => none

/-- Unmarshal one element of the errors array into an ErrorDetail,
mirroring encoding/json: unknown keys ignored, later duplicate keys
overwrite earlier ones, null is a no-op, non-object non-null input is a
type error. -/
def unmarshalDetail (j : Json) : Option ErrorDetail :=
  match j with
  | Json.null => some { code := "", message := "", moreInfo := "" }
  | Json.obj fs =>
    fs.foldl
      (fun acc kv =>
        match acc with
        | none => none
        | some d =>
          if keyMatches kv.1 "code" then
            match stringField kv.2 d.code with
            | some s => some { d with code := s }
            | none => none
          else if keyMatches kv.1 "message" then
            match stringField kv.2 d.message with
            | some s => some { d with message := s }
            | none => none
          else if keyMatches kv.1 "more_info" then
            match stringField kv.2 d.moreInfo with
            | some s => some { d with moreInfo := s }
            | none => none
          else some d)
      (some { code := "", message := "", moreInfo := "" })
  | _ => none

/-- Unmarshal a JSON value into the `errors` slice whose current value
is `cur`: an array replaces it elementwise in document order, null is a
no-op, anything else is a type error. -/
def unmarshalDetails (v : Json) (cur : List ErrorDetail) : Option (List ErrorDetail) :=
  match v with
  | Json.null => some cur
  | Json.arr xs => xs.mapM unmarshalDetail
  | _ => none

/-- Unmarshal a JSON value into a WatsonxErrorResponse, mirroring
json.Unmarshal into the struct with tags `errors` and `trace`. -/
def unmarshalEnvelope (j : Json) : Option WatsonxErrorResponse :=
  match j with
  | Json.null => some { errors := [], trace := "" }
  | Json.obj fs =>
    fs.foldl
      (fun acc kv =>
        match acc with
        | none => none
        | some e =>
          if keyMatches kv.1 "errors" then
            match unmarshalDetails kv.2 e.errors with
            | some ds => some { e with errors := ds }
            | none => none
          else if keyMatches kv.1 "trace" then
            match stringField kv.2 e.trace with
            | some s => some { e with trace := s }
            | none => none
          else some e)
      (some { errors := [], trace := "" })
  | _ => none

/-- json.Unmarshal of a body into WatsonxErrorResponse: `none` exactly
when Go's Unmarshal returns a non-nil error. -/
def parseEnvelope (body : String) : Option WatsonxErrorResponse :=
  match parseJson body with
  | some j => unmarshalEnvelope j
  | none => none

/-- A response body: the bytes still readable from the stream, plus a
flag telling whether io.ReadAll on it fails. -/
structure Body where
  content : String
  readFails : Bool
deriving DecidableEq

/-- An HTTP response, reduced to the fields the embedded code reads:
its status code and its body stream. -/
structure Response where
  statusCode : Int
  body : Body
deriving DecidableEq

/-- DecodeWatsonxError (errors.go): parse an HTTP error response into a
structured watsonx error. The Go function mutates resp.Body (read, then
restore a fresh readable buffer of the same bytes); the embedding
returns the structured error together with the response after that
mutation. Every path yields a WatsonxError: no secondary error is ever
propagated. On a body read failure the response is returned with its
body stream unchanged (no restore happens on that path in the code). -/
def DecodeWatsonxError : Option Response → WatsonxError × Option Response
  | none => ({ statusCode := 0, errors := [], trace := "" }, none)
  | some r =>
    if r.body.readFails then
      ({ statusCode := r.statusCode, errors := [], trace := "" }, some r)
    else
      let bodyBytes := r.body.content
      let restored : Response := { r with body := { content := bodyBytes, readFails := false } }
      if bodyBytes = "" then
        ({ statusCode := r.statusCode, errors := [], trace := "" }, some restored)
      else
        match parseEnvelope bodyBytes with
        | none => ({ statusCode := r.statusCode, errors := [], trace := "" }, some restored)
        | some e =>
          ({ statusCode := r.statusCode, errors := e.errors, trace := e.trace }, some restored)

/-! ## Retry engine (src/pkg/models/retry.go) -/

/-- A Go error value as seen by the retry loop: a transport error from
the retryable function, an io.ReadAll failure on a response body, a
structured watsonx error, or a context error. `Option Err` embeds Go's
nullable `error` (none = nil). -/
inductive Err where
  | transport (msg : String)
  | readFail (msg : String)
  | wx (e : WatsonxError)
  | ctx (msg : String)
deriving DecidableEq

/-- Configuration options for the retry mechanism (retry.go, type
RetryConfig). `retries` is a Go uint, `backoff` and `maxJitter` are Go
time.Duration values (int64 nanoseconds). The onRetry callback, timer
and context fields are side-effecting collaborators: the callback's
invocations are recorded in the event trace, and the timer and context
are resolved by the oracles of a RetryEnv. -/
structure RetryConfig where
  retries : Nat
  backoff : Int
  maxJitter : Int
  retryIf : Option Err → Bool

/-- RetryOption is a function type for modifying RetryConfig options. -/
def RetryOption : Type := RetryConfig → RetryConfig

/-- newDefaultRetryConfig (retry.go): 3 retries, 1s backoff, 1s max
jitter, retry on any non-nil error. -/
def newDefaultRetryConfig : RetryConfig :=
  { retries := 3
    backoff := 1000000000
    maxJitter := 1000000000
    retryIf := fun err => err.isSome }

/-- WithRetries sets the number of retries for the retry configuration. -/
def WithRetries (retries : Nat) : RetryOption :=
  fun cfg => { cfg with retries := retries }

/-- WithBackoff sets the backoff duration between retries. -/
def WithBackoff (backoff : Int) : RetryOption :=
  fun cfg => { cfg with backoff := backoff }

/-- WithMaxJitter sets the maximum jitter duration to add to the
backoff. -/
def WithMaxJitter (maxJitter : Int) : RetryOption :=
  fun cfg => { cfg with maxJitter := maxJitter }

/-- WithRetryIf sets the condition to determine whether to retry based
on the error. -/
def WithRetryIf (retryIf : Option Err → Bool) : RetryOption :=
  fun cfg => { cfg with retryIf := retryIf }

/-- The option-application loop at the top of Retry (retry.go lines
64-68). Options are applied in order to the default configuration. -/
def applyOptions (options : List RetryOption) (cfg : RetryConfig) : RetryConfig :=
  options.foldl (fun c o => o c) cfg

/-- The environment resolving everything outside the retry loop's own
control: `op n` is the outcome of the n-th invocation of the retryable
function (0-based), `ctxBefore n` is the value of ctx.Err() at the
check before attempt n (some = already cancelled), and `waitCancel n`
tells whether ctx.Done() wins the select race against the timer during
the backoff wait following attempt n (and with which ctx.Err() value). -/
structure RetryEnv where
  op : Nat → Option Response × Option Err
  ctxBefore : Nat → Option Err
  waitCancel : Nat → Option Err

/-- Observable events of one Retry invocation: an invocation of the
retryable function, an onRetry callback invocation with its arguments,
and a completed backoff wait (a wait abandoned on cancellation is not
recorded). -/
inductive Event where
  | opCall (n : Nat)
  | onRetryCall (attempt : Nat) (err : Option Err)
  | wait (n : Nat)
deriving DecidableEq

/-- The success test of retry.go line 77: no error, response present,
status code 200 (http.StatusOK). -/
def attemptSuccess (o : Option Response × Option Err) : Bool :=
  match o with
  | (some r, none) => r.statusCode == 200
  | _ => false

/-- The error classification of retry.go lines 82-96 for a failed
attempt: a nil error with a present (non-OK) response is replaced by
the io.ReadAll error if reading the body fails, and otherwise by the
structured error decoded from the response with its body restored; any
other outcome keeps the operation's own error. -/
def classifyOutcome (o : Option Response × Option Err) : Option Err :=
  match o with
  | (some r, none) =>
    if r.body.readFails then some (Err.readFail "read error")
    else
      some (Err.wx (DecodeWatsonxError
        (some { r with body := { content := r.body.content, readFails := false } })).1)
  | (_, e) => e

/-- The attempt loop of Retry (retry.go lines 70-116): `n` is the Go
loop counter, `rem` the number of iterations left (`opts.retries - n`),
`lastErr` the current value of the lastErr variable. Returns the
(response, error) pair together with the trace of events, in order. -/
def retryLoop (env : RetryEnv) (cfg : RetryConfig) :
    Nat → Nat → Option Err → (Option Response × Option Err) × List Event
  | _, 0, lastErr => ((none, lastErr), [])
  | n, rem + 1, _lastErr =>
    match env.ctxBefore n with
    | some e => ((none, some e), [])
    | none =>
      let o := env.op n
      if attemptSuccess o then ((o.1, none), [Event.opCall n])
      else
        let err := classifyOutcome o
        if cfg.retryIf err then
          match env.waitCancel n with
          | some e => ((none, some e), [Event.opCall n, Event.onRetryCall (n + 1) err])
          | none =>
            let rest := retryLoop env cfg (n + 1) rem err
            (rest.1, Event.opCall n :: Event.onRetryCall (n + 1) err :: Event.wait n :: rest.2)
        else ((none, err), [Event.opCall n])

/-- Retry (retry.go): build the configuration from the default and the
options, then run the attempt loop from n = 0 with lastErr = nil. -/
def Retry (env : RetryEnv) (options : List RetryOption) :
    (Option Response × Option Err) × List Event :=
  let opts := applyOptions options newDefaultRetryConfig
  retryLoop env opts 0 opts.retries none

/-- Number of invocations of the retryable function in a trace. -/
def countOp (evs : List Event) : Nat :=
  (evs.filter (fun e => match e with | Event.opCall _ => true | _ => false)).length

/-- Number of onRetry callback invocations in a trace. -/
def countOnRetry (evs : List Event) : Nat :=
  (evs.filter (fun e => match e with | Event.onRetryCall _ _ => true | _ => false)).length

/-- Number of completed backoff waits in a trace. -/
def countWait (evs : List Event) : Nat :=
  (evs.filter (fun e => match e with | Event.wait _ => true | _ => false)).length

/-- An attempt outcome that always counts as a failure: a non-nil
error, or a response present whose status is not 200. -/
def failedOutcome (o : Option Response × Option Err) : Prop :=
  (o.2).isSome = true ∨ ∃ r, o.1 = some r ∧ r.statusCode ≠ 200

/-- An operation that fails on every invocation. -/
def alwaysFails (env : RetryEnv) : Prop := ∀ n, failedOutcome (env.op n)

/-- The context never cancels: ctx.Err() is nil at every pre-attempt
check and the timer wins every select race. -/
def noCancellation (env : RetryEnv) : Prop :=
  ∀ n, env.ctxBefore n = none ∧ env.waitCancel n = none

/-- Mutual exclusivity of the returned pair: a response with a nil
error, or no response with a non-nil error. -/
def Exclusive (p : Option Response × Option Err) : Prop :=
  (∃ r, p = (some r, none)) ∨ (∃ e, p = (none, some e))

/-- The event trace produced by a run of consecutive failed, retried,
uncancelled attempts n, n+1, ..., n+rem-1. -/
def failTrace (env : RetryEnv) : Nat → Nat → List Event
  | _, 0 => []
  | n, rem + 1 =>
    Event.opCall n :: Event.onRetryCall (n + 1) (classifyOutcome (env.op n)) ::
      Event.wait n :: failTrace env (n + 1) rem

/-! ## Concrete environments used to instantiate the theorems -/

/-- An operation that fails on every invocation with a transport error,
under a context that never cancels. -/
def envFail : RetryEnv :=
  { op := fun _ => (none, some (Err.transport "dial tcp: connection refused"))
    ctxBefore := fun _ => none
    waitCancel := fun _ => none }

/-- A 200 response with a readable body. -/
def respOK : Response :=
  { statusCode := 200
    body := { content := "\x7b\"content\":\"success\"\x7d", readFails := false } }

/-- An operation that succeeds on every invocation, under a context
that never cancels. -/
def envOK : RetryEnv :=
  { op := fun _ => (some respOK, none)
    ctxBefore := fun _ => none
    waitCancel := fun _ => none }

/-- A context that is already cancelled before the first attempt. -/
def envCtxDone : RetryEnv :=
  { op := fun _ => (none, some (Err.transport "dial tcp: connection refused"))
    ctxBefore := fun _ => some (Err.ctx "context canceled")
    waitCancel := fun _ => none }

/-- A failing operation whose first backoff wait is interrupted by the
context. -/
def envWaitCancel : RetryEnv :=
  { op := fun _ => (none, some (Err.transport "dial tcp: connection refused"))
    ctxBefore := fun _ => none
    waitCancel := fun _ => some (Err.ctx "context canceled") }

/-- The well-formed error envelope of the spec's round-trip property. -/
def tjson : String :=
  "\x7b\"errors\":[\x7b\"code\":\"invalid_request\",\"message\":\"Invalid input parameter\",\"more_info\":\"Check request payload\"\x7d],\"trace\":\"trace-id-123\"\x7d"

/-- A 400 response carrying the well-formed error envelope. -/
def resp400 : Response :=
  { statusCode := 400, body := { content := tjson, readFails := false } }

/-! ## Helper lemmas about classification and the loop -/

theorem classifyOutcome_eq_none {o : Option Response × Option Err}
    (h : classifyOutcome o = none) : o = (none, none) := by
  rcases o with ⟨r?, e?⟩
  rcases r? with _ | r <;> rcases e? with _ | e <;>
    simp only [classifyOutcome] at h ⊢ <;> first | rfl | (exact absurd h (by simp)) |
      (exact absurd h (by split <;> simp))

theorem attemptSuccess_eq_true {o : Option Response × Option Err}
    (h : attemptSuccess o = true) :
    ∃ r : Response, o = (some r, none) ∧ r.statusCode = 200 := by
  rcases o with ⟨r?, e?⟩
  rcases r? with _ | r <;> rcases e? with _ | e <;> simp [attemptSuccess] at h
  exact ⟨r, rfl, h⟩

theorem failedOutcome_not_success {o : Option Response × Option Err}
    (h : failedOutcome o) : attemptSuccess o = false := by
  rcases o with ⟨r?, e?⟩
  rcases r? with _ | r <;> rcases e? with _ | e <;> simp only [attemptSuccess]
  rcases h with h | ⟨r2, hr2, hs⟩
  · simp [failedOutcome] at h
  · simp only [Option.some.injEq] at hr2
    subst hr2
    simpa using hs

theorem failedOutcome_classify_some {o : Option Response × Option Err}
    (h : failedOutcome o) : ∃ e : Err, classifyOutcome o = some e := by
  cases hc : classifyOutcome o with
  | some e => exact ⟨e, rfl⟩
  | none =>
    have := classifyOutcome_eq_none hc
    subst this
    rcases h with h | ⟨r, hr, _⟩
    · simp at h
    · simp at hr

theorem retryLoop_ctx_cancelled (env : RetryEnv) (cfg : RetryConfig) (n rem : Nat)
    (lastErr : Option Err) (e : Err) (hctx : env.ctxBefore n = some e) :
    retryLoop env cfg n (rem + 1) lastErr = ((none, some e), []) := by
  simp [retryLoop, hctx]

theorem retryLoop_success_step (env : RetryEnv) (cfg : RetryConfig) (n rem : Nat)
    (lastErr : Option Err) (hctx : env.ctxBefore n = none)
    (hs : attemptSuccess (env.op n) = true) :
    retryLoop env cfg n (rem + 1) lastErr = (((env.op n).1, none), [Event.opCall n]) := by
  simp [retryLoop, hctx, hs]

theorem retryLoop_veto_step (env : RetryEnv) (cfg : RetryConfig) (n rem : Nat)
    (lastErr : Option Err) (hctx : env.ctxBefore n = none)
    (hfl : attemptSuccess (env.op n) = false)
    (hp : cfg.retryIf (classifyOutcome (env.op n)) = false) :
    retryLoop env cfg n (rem + 1) lastErr =
      ((none, classifyOutcome (env.op n)), [Event.opCall n]) := by
  simp [retryLoop, hctx, hfl, hp]

theorem retryLoop_wait_cancelled_step (env : RetryEnv) (cfg : RetryConfig) (n rem : Nat)
    (lastErr : Option Err) (e : Err) (hctx : env.ctxBefore n = none)
    (hfl : attemptSuccess (env.op n) = false)
    (hp : cfg.retryIf (classifyOutcome (env.op n)) = true)
    (hwc : env.waitCancel n = some e) :
    retryLoop env cfg n (rem + 1) lastErr =
      ((none, some e),
       [Event.opCall n, Event.onRetryCall (n + 1) (classifyOutcome (env.op n))]) := by
  simp [retryLoop, hctx, hfl, hp, hwc]

theorem retryLoop_fail_step (env : RetryEnv) (cfg : RetryConfig) (n rem : Nat)
    (lastErr : Option Err) (hctx : env.ctxBefore n = none)
    (hfl : attemptSuccess (env.op n) = false)
    (hp : cfg.retryIf (classifyOutcome (env.op n)) = true)
    (hwc : env.waitCancel n = none) :
    retryLoop env cfg n (rem + 1) lastErr =
      ((retryLoop env cfg (n + 1) rem (classifyOutcome (env.op n))).1,
       Event.opCall n :: Event.onRetryCall (n + 1) (classifyOutcome (env.op n)) ::
         Event.wait n :: (retryLoop env cfg (n + 1) rem (classifyOutcome (env.op n))).2) := by
  simp [retryLoop, hctx, hfl, hp, hwc]

/-- Under a predicate that accepts every non-nil error, an operation
that always fails, and a context that never cancels, the loop runs
through all remaining attempts, returns the classification of the last
one, and produces the full failure trace. -/
theorem retryLoop_exhaust (env : RetryEnv) (cfg : RetryConfig)
    (hpred : ∀ e : Err, cfg.retryIf (some e) = true)
    (hfail : alwaysFails env) (hnc : noCancellation env) :
    ∀ rem n : Nat, ∀ lastErr : Option Err,
      retryLoop env cfg n (rem + 1) lastErr =
        ((none, classifyOutcome (env.op (n + rem))), failTrace env n (rem + 1)) := by
  intro rem
  induction rem with
  | zero =>
    intro n lastErr
    obtain ⟨hctx, hwc⟩ := hnc n
    obtain ⟨e, he⟩ := failedOutcome_classify_some (hfail n)
    rw [retryLoop_fail_step env cfg n 0 lastErr hctx (failedOutcome_not_success (hfail n))
      (he ▸ hpred e) hwc]
    simp [retryLoop, failTrace]
  | succ rem ih =>
    intro n lastErr
    obtain ⟨hctx, hwc⟩ := hnc n
    obtain ⟨e, he⟩ := failedOutcome_classify_some (hfail n)
    rw [retryLoop_fail_step env cfg n (rem + 1) lastErr hctx
      (failedOutcome_not_success (hfail n)) (he ▸ hpred e) hwc]
    rw [ih (n + 1) (classifyOutcome (env.op n))]
    simp only [failTrace]
    have harg : n + 1 + rem = n + (rem + 1) := by omega
    rw [harg]

theorem countOp_failTrace (env : RetryEnv) :
    ∀ rem n : Nat, countOp (failTrace env n rem) = rem := by
  intro rem
  induction rem with
  | zero => intro n; rfl
  | succ rem ih =>
    intro n
    simp only [failTrace, countOp, List.filter, List.length_cons] at ih ⊢
    rw [ih (n + 1)]

theorem countOnRetry_failTrace (env : RetryEnv) :
    ∀ rem n : Nat, countOnRetry (failTrace env n rem) = rem := by
  intro rem
  induction rem with
  | zero => intro n; rfl
  | succ rem ih =>
    intro n
    simp only [failTrace, countOnRetry, List.filter, List.length_cons] at ih ⊢
    rw [ih (n + 1)]

theorem countWait_failTrace (env : RetryEnv) :
    ∀ rem n : Nat, countWait (failTrace env n rem) = rem := by
  intro rem
  induction rem with
  | zero => intro n; rfl
  | succ rem ih =>
    intro n
    simp only [failTrace, countWait, List.filter, List.length_cons] at ih ⊢
    rw [ih (n + 1)]

/-- The configuration Retry builds from a single WithRetries option. -/
theorem applyOptions_withRetries (m : Nat) :
    applyOptions [WithRetries m] newDefaultRetryConfig =
      { retries := m
        backoff := 1000000000
        maxJitter := 1000000000
        retryIf := fun err => err.isSome } := rfl

theorem retryLoop_exclusive (env : RetryEnv) (cfg : RetryConfig)
    (hop : ∀ n, env.op n ≠ ((none : Option Response), (none : Option Err))) :
    ∀ rem n : Nat, ∀ lastErr : Option Err, (lastErr = none → 1 ≤ rem) →
      Exclusive (retryLoop env cfg n rem lastErr).1 := by
  intro rem
  induction rem with
  | zero =>
    intro n lastErr hle
    cases lastErr with
    | none => exact absurd (hle rfl) (by omega)
    | some e => exact Or.inr ⟨e, rfl⟩
  | succ rem ih =>
    intro n lastErr _
    cases hctx : env.ctxBefore n with
    | some e =>
      rw [retryLoop_ctx_cancelled env cfg n rem lastErr e hctx]
      exact Or.inr ⟨e, rfl⟩
    | none =>
      cases hs : attemptSuccess (env.op n) with
      | true =>
        obtain ⟨r, hr, _⟩ := attemptSuccess_eq_true hs
        rw [retryLoop_success_step env cfg n rem lastErr hctx hs]
        exact Or.inl ⟨r, by rw [hr]⟩
      | false =>
        obtain ⟨e, he⟩ : ∃ e : Err, classifyOutcome (env.op n) = some e := by
          cases hc : classifyOutcome (env.op n) with
          | some e => exact ⟨e, rfl⟩
          | none => exact absurd (classifyOutcome_eq_none hc) (hop n)
        cases hp : cfg.retryIf (classifyOutcome (env.op n)) with
        | false =>
          rw [retryLoop_veto_step env cfg n rem lastErr hctx hs hp, he]
          exact Or.inr ⟨e, rfl⟩
        | true =>
          cases hwc : env.waitCancel n with
          | some e2 =>
            rw [retryLoop_wait_cancelled_step env cfg n rem lastErr e2 hctx hs hp hwc]
            exact Or.inr ⟨e2, rfl⟩
          | none =>
            rw [retryLoop_fail_step env cfg n rem lastErr hctx hs hp hwc]
            exact ih (n + 1) (classifyOutcome (env.op n)) (by rw [he]; intro h; cases h)

/-! ## Claim theorems -/

/-- Claim C1, amended: provided the built configuration has at least
one attempt and the operation never returns a nil response together
with a nil error, Retry returns either a non-nil response with a nil
error or a nil response with a non-nil error. (As frozen, over every
retry configuration, the claim fails: with WithRetries 0 the loop never
runs and Retry returns a nil response and a nil error.) -/
theorem retry_return_exclusive (env : RetryEnv) (options : List RetryOption)
    (hret : 1 ≤ (applyOptions options newDefaultRetryConfig).retries)
    (hop : ∀ n, env.op n ≠ ((none : Option Response), (none : Option Err))) :
    Exclusive (Retry env options).1 :=
  retryLoop_exclusive env (applyOptions options newDefaultRetryConfig) hop
    (applyOptions options newDefaultRetryConfig).retries 0 none (fun _ => hret)

/-- Witness for C1: the default configuration on an always-failing
operation. -/
theorem retry_return_exclusive_witness : Exclusive (Retry envFail []).1 :=
  retry_return_exclusive envFail [] (by decide)
    (fun n h => by simp [envFail] at h)

/-- Counterexample to C1 as frozen: with WithRetries 0, Retry returns a
nil response together with a nil error — both absent. -/
theorem retry_both_nil_cex :
    (Retry envFail [WithRetries 0]).1 = (none, none) ∧
    ¬ Exclusive (Retry envFail [WithRetries 0]).1 := by
  constructor
  · rfl
  · intro hx
    have h0 : (Retry envFail [WithRetries 0]).1 = (none, none) := rfl
    rw [h0] at hx
    rcases hx with ⟨r, hr⟩ | ⟨e, he⟩
    · simp at hr
    · simp at he

/-- Claim C2, amended: after a failed attempt whose error the retry
predicate accepts, Retry always invokes onRetry and performs the
backoff wait, including after the final attempt; for an operation that
always fails under the default predicate with maxAttempts = m, onRetry
is invoked exactly m times and exactly m waits occur. (As frozen — m-1
callbacks and waits, none after the final attempt — the claim fails:
the loop body has no remaining-attempts check before the callback and
the wait.) -/
theorem retry_onretry_after_every_failure (env : RetryEnv) (m : Nat)
    (hfail : alwaysFails env) (hnc : noCancellation env) :
    (Retry env [WithRetries m]).2 = failTrace env 0 m ∧
    countOnRetry (Retry env [WithRetries m]).2 = m ∧
    countWait (Retry env [WithRetries m]).2 = m := by
  have htrace : (Retry env [WithRetries m]).2 = failTrace env 0 m := by
    cases m with
    | zero => rfl
    | succ m =>
      have hR : Retry env [WithRetries (m + 1)] =
          retryLoop env
            { retries := m + 1
              backoff := 1000000000
              maxJitter := 1000000000
              retryIf := fun err => err.isSome } 0 (m + 1) none := rfl
      rw [hR, retryLoop_exhaust _ _ (fun e => rfl) hfail hnc m 0 none]
  refine ⟨htrace, ?_, ?_⟩
  · rw [htrace, countOnRetry_failTrace]
  · rw [htrace, countWait_failTrace]

/-- Witness for C2 (amended): two attempts against an always-failing
operation produce two onRetry invocations and two waits. -/
theorem retry_onretry_after_every_failure_witness :
    (Retry envFail [WithRetries 2]).2 = failTrace envFail 0 2 ∧
    countOnRetry (Retry envFail [WithRetries 2]).2 = 2 ∧
    countWait (Retry envFail [WithRetries 2]).2 = 2 :=
  retry_onretry_after_every_failure envFail 2 (fun _ => Or.inl rfl) (fun _ => ⟨rfl, rfl⟩)

/-- Counterexample to C2 as frozen: with maxAttempts = 1 and an
always-failing operation, onRetry fires once and one wait occurs, not
1 - 1 = 0 times. -/
theorem onretry_after_final_attempt_cex :
    ¬ (countOnRetry (Retry envFail [WithRetries 1]).2 = 1 - 1 ∧
       countWait (Retry envFail [WithRetries 1]).2 = 1 - 1) := by decide

/-- Claim C3, amended: if the first invocation yields a nil error and a
response with status 200, and at least one attempt is configured, and
the context is not already cancelled, Retry returns exactly that
response with a nil error after exactly one operation invocation with
no onRetry call; conversely a first outcome that is not a strict
success (transport error, absent response, or non-OK status) never
surfaces as a returned response. (As frozen — regardless of the
configured number of attempts — the claim fails: with WithRetries 0 the
operation is never invoked and nil, nil is returned.) -/
theorem retry_success_short_circuit :
    (∀ (env : RetryEnv) (options : List RetryOption) (r : Response),
      env.ctxBefore 0 = none → env.op 0 = (some r, none) → r.statusCode = 200 →
      1 ≤ (applyOptions options newDefaultRetryConfig).retries →
      Retry env options = ((some r, none), [Event.opCall 0])) ∧
    (∀ env : RetryEnv, env.ctxBefore 0 = none → attemptSuccess (env.op 0) = false →
      (Retry env [WithRetries 1]).1.1 = none) := by
  constructor
  · intro env options r hctx hop hst hret
    have hs : attemptSuccess (env.op 0) = true := by
      rw [hop]
      simp [attemptSuccess, hst]
    obtain ⟨rem, hrem⟩ :
        ∃ rem, (applyOptions options newDefaultRetryConfig).retries = rem + 1 :=
      ⟨(applyOptions options newDefaultRetryConfig).retries - 1, by omega⟩
    have hR : Retry env options =
        retryLoop env (applyOptions options newDefaultRetryConfig) 0
          (applyOptions options newDefaultRetryConfig).retries none := rfl
    rw [hR, hrem, retryLoop_success_step _ _ 0 rem none hctx hs, hop]
  · intro env hctx hfl
    have hR : Retry env [WithRetries 1] =
        retryLoop env (applyOptions [WithRetries 1] newDefaultRetryConfig) 0 1 none := rfl
    rw [hR]
    cases hp : (applyOptions [WithRetries 1] newDefaultRetryConfig).retryIf
        (classifyOutcome (env.op 0)) with
    | false => rw [retryLoop_veto_step _ _ 0 0 none hctx hfl hp]
    | true =>
      cases hwc : env.waitCancel 0 with
      | some e => rw [retryLoop_wait_cancelled_step _ _ 0 0 none e hctx hfl hp hwc]
      | none =>
        rw [retryLoop_fail_step _ _ 0 0 none hctx hfl hp hwc]
        rfl

/-- Witness for C3 (amended): a first-call 200 with the default
configuration short-circuits; a first-call transport failure with one
attempt yields no response. -/
theorem retry_success_short_circuit_witness :
    Retry envOK [] = ((some respOK, none), [Event.opCall 0]) ∧
    (Retry envFail [WithRetries 1]).1.1 = none :=
  ⟨retry_success_short_circuit.1 envOK [] respOK rfl rfl rfl (by decide),
   retry_success_short_circuit.2 envFail rfl rfl⟩

/-- Counterexample to C3 as frozen: with WithRetries 0, an operation
whose first invocation would succeed is never invoked and its response
is not returned. -/
theorem success_zero_attempts_cex :
    (Retry envOK [WithRetries 0]).1 ≠ ((some respOK : Option Response), (none : Option Err)) ∧
    countOp (Retry envOK [WithRetries 0]).2 ≠ 1 := by decide

/-- Claim C4: for an operation that always fails (a non-nil error or a
non-OK response on every invocation) under the default retry predicate
with maxAttempts = m ≥ 1, Retry invokes the operation exactly m times
and returns a nil response together with the classified error of the
final attempt only. -/
theorem retry_exhaustion_last_error (env : RetryEnv) (m : Nat) (hm : 1 ≤ m)
    (hfail : alwaysFails env) (hnc : noCancellation env) :
    (Retry env [WithRetries m]).1 = (none, classifyOutcome (env.op (m - 1))) ∧
    countOp (Retry env [WithRetries m]).2 = m := by
  obtain ⟨rem, rfl⟩ : ∃ rem, m = rem + 1 := ⟨m - 1, by omega⟩
  have hR : Retry env [WithRetries (rem + 1)] =
      retryLoop env
        { retries := rem + 1
          backoff := 1000000000
          maxJitter := 1000000000
          retryIf := fun err => err.isSome } 0 (rem + 1) none := rfl
  rw [hR, retryLoop_exhaust _ _ (fun e => rfl) hfail hnc rem 0 none]
  constructor
  · simp
  · exact countOp_failTrace env (rem + 1) 0

/-- Witness for C4: three attempts against an always-failing transport,
returning the third attempt's error. -/
theorem retry_exhaustion_last_error_witness :
    (Retry envFail [WithRetries 3]).1 = (none, classifyOutcome (envFail.op 2)) ∧
    countOp (Retry envFail [WithRetries 3]).2 = 3 :=
  retry_exhaustion_last_error envFail 3 (by decide) (fun _ => Or.inl rfl)
    (fun _ => ⟨rfl, rfl⟩)

/-- Claim C5: whenever the retry predicate rejects the classified error
of the current (non-successful, uncancelled) attempt, the loop returns
immediately with a nil response and that error: the trace of that run
is a single operation invocation — no onRetry call, no wait, no further
attempt — at any attempt index n and with any number of remaining
iterations; consequently the same holds for a whole Retry call vetoed
on its first attempt. -/
theorem retry_predicate_veto :
    (∀ (env : RetryEnv) (cfg : RetryConfig) (n rem : Nat) (lastErr : Option Err),
      env.ctxBefore n = none → attemptSuccess (env.op n) = false →
      cfg.retryIf (classifyOutcome (env.op n)) = false →
      retryLoop env cfg n (rem + 1) lastErr =
        ((none, classifyOutcome (env.op n)), [Event.opCall n])) ∧
    (∀ (env : RetryEnv) (options : List RetryOption),
      env.ctxBefore 0 = none → attemptSuccess (env.op 0) = false →
      (applyOptions options newDefaultRetryConfig).retryIf (classifyOutcome (env.op 0)) =
        false →
      1 ≤ (applyOptions options newDefaultRetryConfig).retries →
      Retry env options = ((none, classifyOutcome (env.op 0)), [Event.opCall 0])) := by
  constructor
  · exact fun env cfg n rem lastErr hctx hfl hp =>
      retryLoop_veto_step env cfg n rem lastErr hctx hfl hp
  · intro env options hctx hfl hp hret
    obtain ⟨rem, hrem⟩ :
        ∃ rem, (applyOptions options newDefaultRetryConfig).retries = rem + 1 :=
      ⟨(applyOptions options newDefaultRetryConfig).retries - 1, by omega⟩
    have hR : Retry env options =
        retryLoop env (applyOptions options newDefaultRetryConfig) 0
          (applyOptions options newDefaultRetryConfig).retries none := rfl
    rw [hR, hrem, retryLoop_veto_step _ _ 0 rem none hctx hfl hp]

/-- Witness for C5: a predicate that always rejects stops a
three-attempt budget after a single invocation, in the middle of the
loop and at the Retry level. -/
theorem retry_predicate_veto_witness :
    retryLoop envFail (applyOptions [WithRetryIf (fun _ => false)] newDefaultRetryConfig)
      0 2 none = ((none, classifyOutcome (envFail.op 0)), [Event.opCall 0]) ∧
    Retry envFail [WithRetryIf (fun _ => false)] =
      ((none, classifyOutcome (envFail.op 0)), [Event.opCall 0]) :=
  ⟨retry_predicate_veto.1 envFail
     (applyOptions [WithRetryIf (fun _ => false)] newDefaultRetryConfig) 0 1 none rfl rfl
     rfl,
   retry_predicate_veto.2 envFail [WithRetryIf (fun _ => false)] rfl rfl rfl (by decide)⟩

/-- Claim C6: decoding a non-nil response whose body read succeeds and
parses as the error envelope yields a structured error carrying the
response's status code, the error details in document order, and the
trace string, and restores the response body so it is fully readable
again. -/
theorem decode_envelope_roundtrip (r : Response) (envl : WatsonxErrorResponse)
    (hread : r.body.readFails = false)
    (hp : parseEnvelope r.body.content = some envl) :
    DecodeWatsonxError (some r) =
      ({ statusCode := r.statusCode, errors := envl.errors, trace := envl.trace },
       some { statusCode := r.statusCode
              body := { content := r.body.content, readFails := false } }) := by
  have hne : r.body.content ≠ "" := by
    intro h0
    rw [h0] at hp
    rw [show parseEnvelope "" = none from rfl] at hp
    exact Option.noConfusion hp
  simp [DecodeWatsonxError, hread, hne, hp]

/-- The parsed form of the spec's round-trip envelope. -/
def envelope400 : WatsonxErrorResponse :=
  { errors := [{ code := "invalid_request"
                 message := "Invalid input parameter"
                 moreInfo := "Check request payload" }]
    trace := "trace-id-123" }

set_option maxRecDepth 1000000 in
/-- Witness for C6: status 400 with the concrete envelope yields status
400, one detail with code invalid_request, trace trace-id-123, and a
fully re-readable body. -/
theorem decode_envelope_roundtrip_witness :
    DecodeWatsonxError (some resp400) =
      ({ statusCode := 400, errors := envelope400.errors, trace := envelope400.trace },
       some { statusCode := 400, body := { content := tjson, readFails := false } }) :=
  decode_envelope_roundtrip resp400 envelope400 rfl (by decide)

/-- Claim C7: DecodeWatsonxError never propagates a secondary error:
a nil response yields a structured error with zero status code and
empty details; a non-nil response with an empty body, an unparsable
body, or a failing body read yields a structured error populated only
with the response's status code. -/
theorem decode_error_degrades :
    (DecodeWatsonxError none).1 = { statusCode := 0, errors := [], trace := "" } ∧
    (∀ r : Response, r.body.readFails = false → r.body.content = "" →
      (DecodeWatsonxError (some r)).1 =
        { statusCode := r.statusCode, errors := [], trace := "" }) ∧
    (∀ r : Response, r.body.readFails = false → parseEnvelope r.body.content = none →
      (DecodeWatsonxError (some r)).1 =
        { statusCode := r.statusCode, errors := [], trace := "" }) ∧
    (∀ r : Response, r.body.readFails = true →
      (DecodeWatsonxError (some r)).1 =
        { statusCode := r.statusCode, errors := [], trace := "" }) := by
  refine ⟨rfl, ?_, ?_, ?_⟩
  · intro r h1 h2
    simp [DecodeWatsonxError, h1, h2]
  · intro r h1 h2
    by_cases hc : r.body.content = ""
    · simp [DecodeWatsonxError, h1, hc]
    · simp [DecodeWatsonxError, h1, hc, h2]
  · intro r h1
    simp [DecodeWatsonxError, h1]

/-- A 500 response with an empty body. -/
def resp500 : Response := { statusCode := 500, body := { content := "", readFails := false } }

/-- A 502 response with a non-JSON body. -/
def respBad : Response :=
  { statusCode := 502, body := { content := "Bad Gateway", readFails := false } }

/-- A 503 response whose body read fails. -/
def respReadFail : Response :=
  { statusCode := 503, body := { content := "", readFails := true } }

/-- Witness for C7: the nil-response, empty-body, unparsable-body and
read-failure cases at concrete responses. -/
theorem decode_error_degrades_witness :
    (DecodeWatsonxError none).1 = { statusCode := 0, errors := [], trace := "" } ∧
    (DecodeWatsonxError (some resp500)).1 =
      { statusCode := 500, errors := [], trace := "" } ∧
    (DecodeWatsonxError (some respBad)).1 =
      { statusCode := 502, errors := [], trace := "" } ∧
    (DecodeWatsonxError (some respReadFail)).1 =
      { statusCode := 503, errors := [], trace := "" } :=
  ⟨decode_error_degrades.1,
   decode_error_degrades.2.1 resp500 rfl rfl,
   decode_error_degrades.2.2.1 respBad rfl (by decide),
   decode_error_degrades.2.2.2 respReadFail rfl⟩

/-- Claim C8, amended: the default configuration satisfies the spec's
invariants — maxAttempts = 3 ≥ 1, backoff ≥ 0, maxJitter ≥ 0 — and
maxAttempts counts total invocation attempts; but the option functions
store their argument unvalidated, so a configuration produced by the
options need not satisfy the invariants (WithRetries 0 yields
maxAttempts = 0). -/
theorem retry_config_defaults_unvalidated :
    (newDefaultRetryConfig.retries = 3 ∧ 1 ≤ newDefaultRetryConfig.retries ∧
      0 ≤ newDefaultRetryConfig.backoff ∧ 0 ≤ newDefaultRetryConfig.maxJitter) ∧
    (∀ (cfg : RetryConfig) (u : Nat), (WithRetries u cfg).retries = u) ∧
    (∀ (cfg : RetryConfig) (d : Int), (WithBackoff d cfg).backoff = d) ∧
    (∀ (cfg : RetryConfig) (d : Int), (WithMaxJitter d cfg).maxJitter = d) ∧
    (∀ (env : RetryEnv) (m : Nat), alwaysFails env → noCancellation env →
      countOp (Retry env [WithRetries m]).2 = m) := by
  refine ⟨⟨rfl, by decide, by decide, by decide⟩, fun cfg u => rfl, fun cfg d => rfl,
    fun cfg d => rfl, ?_⟩
  intro env m hfail hnc
  cases m with
  | zero => rfl
  | succ m =>
    have hR : Retry env [WithRetries (m + 1)] =
        retryLoop env
          { retries := m + 1
            backoff := 1000000000
            maxJitter := 1000000000
            retryIf := fun err => err.isSome } 0 (m + 1) none := rfl
    rw [hR, retryLoop_exhaust _ _ (fun e => rfl) hfail hnc m 0 none]
    exact countOp_failTrace env (m + 1) 0

/-- Witness for C8 (amended): defaults, a stored override, and the
attempt count at four configured attempts. -/
theorem retry_config_defaults_unvalidated_witness :
    newDefaultRetryConfig.retries = 3 ∧
    (WithRetries 5 newDefaultRetryConfig).retries = 5 ∧
    countOp (Retry envFail [WithRetries 4]).2 = 4 :=
  ⟨retry_config_defaults_unvalidated.1.1,
   retry_config_defaults_unvalidated.2.1 newDefaultRetryConfig 5,
   retry_config_defaults_unvalidated.2.2.2.2 envFail 4 (fun _ => Or.inl rfl)
     (fun _ => ⟨rfl, rfl⟩)⟩

/-- Counterexample to C8 as frozen: applying the provided option
WithRetries 0 to the default configuration yields maxAttempts = 0,
violating maxAttempts ≥ 1. -/
theorem with_retries_zero_cex :
    ¬ 1 ≤ (applyOptions [WithRetries 0] newDefaultRetryConfig).retries := by decide

/-- Claim C9: if the cancellation token is already cancelled at the
check before an attempt, the loop returns a nil response and the
cancellation error with an empty trace — the operation is not invoked
for that attempt; and if the token fires during the backoff wait after
a failed retryable attempt, the loop returns a nil response and the
cancellation error with no completed wait and no further operation
invocation. -/
theorem retry_cancellation_points :
    (∀ (env : RetryEnv) (cfg : RetryConfig) (n rem : Nat) (lastErr : Option Err) (e : Err),
      env.ctxBefore n = some e →
      retryLoop env cfg n (rem + 1) lastErr = ((none, some e), [])) ∧
    (∀ (env : RetryEnv) (cfg : RetryConfig) (n rem : Nat) (lastErr : Option Err) (e : Err),
      env.ctxBefore n = none → attemptSuccess (env.op n) = false →
      cfg.retryIf (classifyOutcome (env.op n)) = true → env.waitCancel n = some e →
      retryLoop env cfg n (rem + 1) lastErr =
        ((none, some e),
         [Event.opCall n, Event.onRetryCall (n + 1) (classifyOutcome (env.op n))])) :=
  ⟨fun env cfg n rem lastErr e h =>
     retryLoop_ctx_cancelled env cfg n rem lastErr e h,
   fun env cfg n rem lastErr e h1 h2 h3 h4 =>
     retryLoop_wait_cancelled_step env cfg n rem lastErr e h1 h2 h3 h4⟩

/-- Witness for C9: a pre-cancelled context performs no attempt; a
context firing during the first wait stops the run after one attempt
and one callback. -/
theorem retry_cancellation_points_witness :
    retryLoop envCtxDone newDefaultRetryConfig 0 3 none =
      ((none, some (Err.ctx "context canceled")), []) ∧
    retryLoop envWaitCancel newDefaultRetryConfig 0 3 none =
      ((none, some (Err.ctx "context canceled")),
       [Event.opCall 0, Event.onRetryCall 1 (classifyOutcome (envWaitCancel.op 0))]) :=
  ⟨retry_cancellation_points.1 envCtxDone newDefaultRetryConfig 0 2 none
     (Err.ctx "context canceled") rfl,
   retry_cancellation_points.2 envWaitCancel newDefaultRetryConfig 0 2 none
     (Err.ctx "context canceled") rfl rfl rfl rfl⟩

/-- Claim C10: configured with WithRetries 0, Retry returns a nil
response and a nil error with an empty event trace — the operation and
onRetry are never invoked — and the result does not depend on the retry
predicate, which the never-executed loop body never consults. -/
theorem retry_zero_attempts (env : RetryEnv) (p : Option Err → Bool) :
    Retry env [WithRetries 0] = ((none, none), []) ∧
    Retry env [WithRetries 0, WithRetryIf p] = ((none, none), []) :=
  ⟨rfl, rfl⟩

end WatsonxGo
